import Mathlib

/-!
Shallow embedding of the expanded-retrieval orchestration core
(`backend/onyx/agent_search/expanded_retrieval/nodes.py`).

Scores are embedded as rationals (`ℚ`), machine floats being used by the
source only for sums and means of retrieval scores.  Python dictionaries
keyed by chunk identity are embedded as insertion-ordered association
lists.  External collaborators (the retrieval backend, the language-model
client, the reranking model) are parameters of the node functions, exactly
as the spec treats them as out-of-scope interfaces.
-/

set_option autoImplicit false

namespace Onyx

/-- The center chunk of a retrieved document section: `document_id`,
`chunk_id` and an optional relevance `score`. -/
structure Chunk where
  document_id : String
  chunk_id : Nat
  score : Option ℚ
  deriving DecidableEq, Repr

/-- A retrieved document section (`InferenceSection`): a center chunk plus
the combined textual content used for verification prompts. -/
structure InferenceSection where
  center_chunk : Chunk
  combined_content : String
  deriving DecidableEq, Repr

/-- The identity key `f"{doc.center_chunk.document_id}_{doc.center_chunk.chunk_id}"`
used by the stats aggregator. -/
def doc_chunk_id (d : InferenceSection) : String :=
  d.center_chunk.document_id ++ "_" ++ toString d.center_chunk.chunk_id

/-- `RetrievalFitStats`: a scalar lift, a rerank effect and a per-document
score map (embedded as an association list). -/
structure RetrievalFitStats where
  fit_score_lift : ℚ
  rerank_effect : ℚ
  fit_scores : List (String × ℚ)
  deriving DecidableEq, Repr

/-- `QueryResult`: one expanded query, the ordered list of sections it
retrieved, and optional fit statistics. -/
structure QueryResult where
  query : String
  search_results : List InferenceSection
  stats : Option RetrievalFitStats
  deriving DecidableEq, Repr

/-- `AgentChunkStats`: aggregated counts and average scores over verified vs
rejected chunks, plus the verified and dismissed chunk identities. -/
structure AgentChunkStats where
  verified_count : Nat
  verified_avg_scores : ℚ
  rejected_count : Nat
  rejected_avg_scores : Option ℚ
  verified_doc_chunk_ids : List String
  dismissed_doc_chunk_ids : List String
  deriving DecidableEq, Repr

/-- The terminal result bundle (`ExpandedRetrievalResult`). -/
structure ExpandedRetrievalResult where
  expanded_queries_results : List QueryResult
  all_documents : List InferenceSection
  sub_question_retrieval_stats : AgentChunkStats
  deriving DecidableEq, Repr

/-- The configuration constants consumed by the nodes
(`AGENT_MAX_QUERY_RETRIEVAL_RESULTS`, `AGENT_RERANKING_MAX_QUERY_RETRIEVAL_RESULTS`,
`AGENT_RETRIEVAL_STATS`, `AGENT_RERANKING_STATS` from `dev_configs`). -/
structure AgentConfig where
  max_retrieval_results : Nat
  max_reranked_results : Nat
  enable_retrieval_stats : Bool
  enable_rerank_stats : Bool
  deriving DecidableEq, Repr

/-- Python's whitespace characters, as stripped by `str.strip()`. -/
def isPyWhitespace (c : Char) : Bool :=
  c = ' ' ∨ c = '\t' ∨ c = '\n' ∨ c = '\r' ∨ c = '\x0b' ∨ c = '\x0c'

/-- Python's `str.strip()`: remove leading and trailing whitespace. -/
def py_strip (s : String) : String :=
  String.mk (((s.toList.dropWhile isPyWhitespace).reverse.dropWhile isPyWhitespace).reverse)

/-- One typed tool response yielded by the retrieval backend; only the
distinguished summary response's `top_sections` payload is consumed. -/
structure ToolResponse where
  id : String
  top_sections : List InferenceSection
  deriving DecidableEq, Repr

/-- The id of the distinguished summary response (`SEARCH_RESPONSE_SUMMARY_ID`). -/
def SEARCH_RESPONSE_SUMMARY_ID : String := "search_response_summary"

/-- The backend's search pipeline, exposing the pre-rerank candidate set
`_retrieved_sections` (a possibly absent, possibly empty list). -/
structure SearchPipeline where
  retrieved_sections : Option (List InferenceSection)

/-- The retrieval-backend handle: `run` maps a query to the sequence of tool
responses, and `search_pipeline` is the optional underlying pipeline. -/
structure SearchTool where
  run : String → List ToolResponse
  search_pipeline : Option SearchPipeline

/-- Mean of a list of rationals (`np.mean`); only applied to non-empty lists
by the source. -/
def np_mean (l : List ℚ) : ℚ := l.sum / l.length

/-- Mean of the available scores of a document list. -/
def avg_score (docs : List InferenceSection) : ℚ :=
  np_mean (docs.filterMap (fun d => d.center_chunk.score))

/-- Modelled from the spec: `get_fit_scores` (from
`shared_graph_utils.calculations`, not part of the sources) is "a score-lift
measurement comparing a 'before' and 'after' document list — a scalar lift
plus a per-document score map". -/
def get_fit_scores (before after : List InferenceSection) : RetrievalFitStats :=
  { fit_score_lift := avg_score after - avg_score before
    rerank_effect := 0
    fit_scores := after.map (fun d => (doc_chunk_id d, (d.center_chunk.score).getD 0)) }

/-- The update fragment returned by `doc_retrieval`. -/
structure DocRetrievalUpdate where
  expanded_retrieval_results : List QueryResult
  retrieved_documents : List InferenceSection
  deriving DecidableEq, Repr

/-- Whether the backend exposes a non-empty pre-rerank candidate set
(`search_tool.search_pipeline._retrieved_sections` truthy). -/
def exposes_pre_rerank (t : SearchTool) : Bool :=
  match t.search_pipeline with
  | none => false
  | some p =>
    match p.retrieved_sections with
    | none => false
    | some l => !l.isEmpty

/-- The pre-rerank document list used for fit statistics:
`search_tool.search_pipeline._retrieved_sections or retrieved_docs`
(falling back to the retrieved list when the pipeline is absent or exposes a
falsy candidate set). -/
def pre_rerank_of (t : SearchTool) (retrieved_docs : List InferenceSection) :
    List InferenceSection :=
  match t.search_pipeline with
  | none => retrieved_docs
  | some p =>
    match p.retrieved_sections with
    | none => retrieved_docs
    | some l => if l.isEmpty then retrieved_docs else l

/-- `doc_retrieval`: the retrieval worker for one expanded query.  The second
component of the result counts how many times the retrieval backend's `run`
was invoked (0 or 1), making the short-circuit on blank queries observable. -/
def doc_retrieval (cfg : AgentConfig) (search_tool : SearchTool)
    (query_to_retrieve : String) : DocRetrievalUpdate × Nat :=
  if py_strip query_to_retrieve = "" then
    ({ expanded_retrieval_results := [], retrieved_documents := [] }, 0)
  else
    let responses := search_tool.run query_to_retrieve
    let summary_docs := responses.foldl
      (fun acc tr => if tr.id = SEARCH_RESPONSE_SUMMARY_ID then tr.top_sections else acc) []
    let retrieved_docs := summary_docs.take cfg.max_retrieval_results
    let fit_scores : Option RetrievalFitStats :=
      if cfg.enable_retrieval_stats then
        some (get_fit_scores (pre_rerank_of search_tool retrieved_docs) retrieved_docs)
      else
        none
    ({ expanded_retrieval_results :=
        [{ query := query_to_retrieve, search_results := retrieved_docs, stats := fit_scores }]
       retrieved_documents := retrieved_docs }, 1)

/-- A Python value returned as a model response's `content`: either a string
or some non-string value (whose shape is irrelevant to the verifier). -/
inductive PyContent where
  | str (s : String)
  | nonstr (tag : Nat)
  deriving DecidableEq, Repr

/-- Decides whether `pre` is a prefix of `l`. -/
def isPrefixList : List Char → List Char → Bool
  | [], _ => true
  | _ :: _, [] => false
  | a :: asl, b :: bs => a = b && isPrefixList asl bs

/-- Decides whether `needle` occurs as a contiguous substring of `hay`
(Python's `needle in hay`). -/
def strContains (hay needle : List Char) : Bool :=
  match hay with
  | [] => needle.isEmpty
  | _ :: t => isPrefixList needle hay || strContains t needle

/-- Python's `str.lower()`, as the lowercased character list. -/
def py_lower_chars (s : String) : List Char := s.toList.map Char.toLower

/-- `isinstance(response.content, str) and "yes" in response.content.lower()`. -/
def response_is_yes (c : PyContent) : Bool :=
  match c with
  | .str s => strContains (py_lower_chars s) "yes".toList
  | .nonstr _ => false

/-- Modelled from the spec: `VERIFIER_PROMPT` (from
`shared_graph_utils.prompts`, not part of the sources) "builds a yes/no
relevance prompt combining the question and the document's combined
content". -/
def VERIFIER_PROMPT_format (question document_content : String) : String :=
  "Determine whether the document is relevant to the question. Question: "
    ++ question ++ " Document: " ++ document_content ++ " Answer yes or no."

/-- The update fragment returned by `doc_verification`. -/
structure DocVerificationUpdate where
  verified_documents : List InferenceSection
  deriving DecidableEq, Repr

/-- `doc_verification`: asks the fast model a yes/no relevance question about
one document; the model is the function `fast_llm` from prompt to response
content. -/
def doc_verification (question : String) (doc_to_verify : InferenceSection)
    (fast_llm : String → PyContent) : DocVerificationUpdate :=
  let document_content := doc_to_verify.combined_content
  let response := fast_llm (VERIFIER_PROMPT_format question document_content)
  let verified_documents :=
    if response_is_yes response then [doc_to_verify] else []
  { verified_documents := verified_documents }

/-- An entry of the (dynamically typed) list returned by the reranking model:
either a genuine document section or a malformed value. -/
inductive RerankEntry where
  | sec (s : InferenceSection)
  | malformed (tag : Nat)
  deriving DecidableEq, Repr

/-- `[doc for doc in reranked_documents if type(doc) == InferenceSection]`. -/
def entry_sections (l : List RerankEntry) : List InferenceSection :=
  l.filterMap (fun e => match e with | .sec s => some s | .malformed _ => none)

/-- The reranking configuration resolved by retrieval preprocessing:
`rerank_settings` with `rerank_model_name` and `num_rerank`. -/
structure RerankSettings where
  rerank_model_name : Option String
  num_rerank : Int
  deriving DecidableEq, Repr

/-- `_search_query.rerank_settings and _search_query.rerank_settings.rerank_model_name
and _search_query.rerank_settings.num_rerank > 0` (Python truthiness of the
model name: present and non-empty). -/
def rerank_configured (rs : Option RerankSettings) : Bool :=
  match rs with
  | none => false
  | some s =>
    (match s.rerank_model_name with
     | none => false
     | some n => !(n = "")) && decide (0 < s.num_rerank)

/-- The update fragment returned by `doc_reranking`. -/
structure DocRerankingUpdate where
  reranked_documents : List InferenceSection
  sub_question_retrieval_stats : RetrievalFitStats
  deriving DecidableEq, Repr

/-- `doc_reranking`: reranks the verified documents when a reranking model and
a positive rerank count are configured, otherwise passes them through; filters
to genuine sections and truncates.  `rerank_settings` is the configuration
resolved by `retrieval_preprocessing` and `rerank_sections_run` is the external
reranking invocation (`rerank_sections(_search_query, verified_documents)`),
whose output is a dynamically typed list. -/
def doc_reranking (cfg : AgentConfig) (rerank_settings : Option RerankSettings)
    (rerank_sections_run : List InferenceSection → List RerankEntry)
    (verified_documents : List InferenceSection) : DocRerankingUpdate :=
  let reranked_documents : List RerankEntry :=
    if rerank_configured rerank_settings then
      rerank_sections_run verified_documents
    else
      verified_documents.map RerankEntry.sec
  let fit_scores : RetrievalFitStats :=
    if cfg.enable_rerank_stats then
      get_fit_scores verified_documents (entry_sections reranked_documents)
    else
      { fit_score_lift := 0, rerank_effect := 0, fit_scores := [] }
  { reranked_documents :=
      (entry_sections reranked_documents).take cfg.max_reranked_results
    sub_question_retrieval_stats := fit_scores }

/-- Appends a score to the entry of `key` in an insertion-ordered association
list, creating the entry at the end when absent
(`chunk_scores[doc_chunk_id]["score"].append(score)` on a `defaultdict`). -/
def assocAppend : List (String × List ℚ) → String → ℚ → List (String × List ℚ)
  | [], k, v => [(k, [v])]
  | (k', vs) :: rest, k, v =>
    if k' = k then (k', vs ++ [v]) :: rest else (k', vs) :: assocAppend rest k v

/-- One step of the `chunk_scores` construction: a document whose center
chunk carries a score appends that score under its identity key; a scoreless
document leaves the map unchanged. -/
def score_fold_doc (m : List (String × List ℚ)) (d : InferenceSection) :
    List (String × List ℚ) :=
  match d.center_chunk.score with
  | some v => assocAppend m (doc_chunk_id d) v
  | none => m

/-- The `chunk_scores` contribution of one QueryResult. -/
def score_fold_result (m : List (String × List ℚ)) (r : QueryResult) :
    List (String × List ℚ) :=
  r.search_results.foldl score_fold_doc m

/-- The `chunk_scores` map of `_calculate_sub_question_retrieval_stats`: for
every document of every QueryResult whose center chunk carries a score, the
scores observed for its identity key, in insertion order. -/
def buildChunkScores (expanded_retrieval_results : List QueryResult) :
    List (String × List ℚ) :=
  expanded_retrieval_results.foldl score_fold_result []

/-- The raw counters of the aggregation loop: `raw_chunk_stats_counts`,
`raw_chunk_stats_scores` (the `rejected_scores` key of which exists only once
a rejected chunk was processed) and `dismissed_doc_chunk_ids`. -/
structure RawChunkStats where
  verified_count : Nat
  verified_scores : ℚ
  rejected_count : Nat
  rejected_scores : Option ℚ
  dismissed_doc_chunk_ids : List String
  deriving DecidableEq, Repr

/-- The initial raw counters (empty defaultdicts and an empty list). -/
def RawChunkStats.init : RawChunkStats :=
  { verified_count := 0, verified_scores := 0, rejected_count := 0
    rejected_scores := none, dismissed_doc_chunk_ids := [] }

/-- One iteration of the aggregation loop over `chunk_scores.items()`. -/
def chunk_step (verified_doc_chunk_ids : List String) (acc : RawChunkStats)
    (entry : String × List ℚ) : RawChunkStats :=
  if entry.1 ∈ verified_doc_chunk_ids then
    { acc with
        verified_count := acc.verified_count + 1
        verified_scores := acc.verified_scores + np_mean entry.2 }
  else
    { acc with
        rejected_count := acc.rejected_count + 1
        rejected_scores := some ((acc.rejected_scores).getD 0 + np_mean entry.2)
        dismissed_doc_chunk_ids := acc.dismissed_doc_chunk_ids ++ [entry.1] }

/-- `_calculate_sub_question_retrieval_stats`: aggregates verified/rejected
counts and average scores over the chunk identity keys observed (with a
score) across all QueryResults. -/
def calculate_sub_question_retrieval_stats
    (verified_documents : List InferenceSection)
    (expanded_retrieval_results : List QueryResult) : AgentChunkStats :=
  let chunk_scores := buildChunkScores expanded_retrieval_results
  let verified_doc_chunk_ids := verified_documents.map doc_chunk_id
  let raw := chunk_scores.foldl (chunk_step verified_doc_chunk_ids) RawChunkStats.init
  let verified_avg_scores : ℚ :=
    if raw.verified_count = 0 then 0
    else raw.verified_scores / (raw.verified_count : ℚ)
  let rejected_avg_scores : Option ℚ :=
    raw.rejected_scores.map (fun s => s / (raw.rejected_count : ℚ))
  { verified_count := raw.verified_count
    verified_avg_scores := verified_avg_scores
    rejected_count := raw.rejected_count
    rejected_avg_scores := rejected_avg_scores
    verified_doc_chunk_ids := verified_doc_chunk_ids
    dismissed_doc_chunk_ids := raw.dismissed_doc_chunk_ids }

/-- `format_results`: assembles the terminal result bundle from the collected
QueryResults, the verified documents and the reranked documents. -/
def format_results (expanded_retrieval_results : List QueryResult)
    (verified_documents reranked_documents : List InferenceSection) :
    ExpandedRetrievalResult :=
  { expanded_queries_results := expanded_retrieval_results
    all_documents := reranked_documents
    sub_question_retrieval_stats :=
      calculate_sub_question_retrieval_stats verified_documents
        expanded_retrieval_results }

/-- The original search request held by the agent configuration. -/
structure SearchRequest where
  query : String
  deriving DecidableEq, Repr

/-- The subgraph configuration: the original search request and the optional
chat-session identity required for event tagging. -/
structure SubgraphConfig where
  search_request : SearchRequest
  chat_session_id : Option String
  deriving DecidableEq, Repr

/-- The error raised by `expand_queries` when the chat-session identity is
absent (`ValueError("chat_session_id must be provided for agent search")`). -/
inductive ConfigError where
  | missing_chat_session_id (msg : String)
  deriving DecidableEq, Repr

/-- Modelled from the spec: `parse_question_id` (from
`shared_graph_utils.utils`, not part of the sources) decodes "a
`(level, question_number)` pair encoded into a single sub-question identifier
string". -/
def parse_question_id (s : String) : Nat × Nat :=
  match s.splitOn "_" with
  | [a, b] => ((a.toNat?).getD 0, (b.toNat?).getD 0)
  | _ => (0, 0)

/-- Modelled from the spec: `REWRITE_PROMPT_MULTI_ORIGINAL` (from
`shared_graph_utils.prompts`, not part of the sources) "constructs a rewrite
prompt instructing the model to produce multiple alternative phrasings of the
question". -/
def REWRITE_PROMPT_MULTI_ORIGINAL_format (question : String) : String :=
  "Rewrite the following question into several alternative search queries, one per line: "
    ++ question

/-- Python's `str.split("\n")` on a character list: splits on every
occurrence of the separator, yielding at least one (possibly empty) group. -/
def splitLinesChars : List Char → List (List Char)
  | [] => [[]]
  | c :: rest =>
    match splitLinesChars rest with
    | [] => [[]]
    | g :: gs => if c = '\n' then [] :: g :: gs else (c :: g) :: gs

/-- Python's `llm_response.split("\n")`. -/
def py_split_newline (s : String) : List String :=
  (splitLinesChars s.toList).map String.mk

/-- The update fragment returned by `expand_queries`. -/
structure QueryExpansionUpdate where
  expanded_queries : List String
  deriving DecidableEq, Repr

/-- `expand_queries`: expands the question (or, when no question is supplied,
the original search request's query) into rewritten queries by streaming the
model and splitting the accumulated response on line breaks.  `llm_stream` is
the streaming model interface; the streamed chunks are accumulated by
concatenation (`merge_message_runs` with an empty chunk separator). -/
def expand_queries (config : SubgraphConfig) (question : Option String)
    (sub_question_id : Option String) (llm_stream : String → List String) :
    Except ConfigError QueryExpansionUpdate :=
  let q := question.getD config.search_request.query
  let _lq : Nat × Nat :=
    match sub_question_id with
    | none => (0, 0)
    | some sid => parse_question_id sid
  match config.chat_session_id with
  | none => .error (.missing_chat_session_id "chat_session_id must be provided for agent search")
  | some _ =>
    let llm_response := String.join (llm_stream (REWRITE_PROMPT_MULTI_ORIGINAL_format q))
    let rewritten_queries := py_split_newline llm_response
    .ok { expanded_queries := rewritten_queries }

/-- Modelled from the spec: `rerank_sections` (from
`context.search.postprocessing`, not part of the sources) "invokes the
reranking model over the verified documents and takes the reordered list"
(`rerank(query_context, documents) -> reordered documents`); embedded as an
insertion sort by descending reranking-model score. -/
def insertByScore (f : InferenceSection → ℚ) (d : InferenceSection) :
    List InferenceSection → List InferenceSection
  | [] => [d]
  | x :: xs => if f x ≤ f d then d :: x :: xs else x :: insertByScore f d xs

/-- Modelled from the spec: the reordering performed by the reranking model,
sorting by descending model score (see `insertByScore`). -/
def rerank_sections (f : InferenceSection → ℚ) (docs : List InferenceSection) :
    List InferenceSection :=
  docs.foldr (insertByScore f) []

/-- The whole unit of work, composed as the task graph runs it: expansion,
one retrieval per expanded query (merged by list append), one verification
per retrieved document (merged by list append), one reranking invocation,
then result formatting.  All external collaborators are parameters. -/
def run_expanded_retrieval (cfg : AgentConfig) (config : SubgraphConfig)
    (question : Option String) (sub_question_id : Option String)
    (llm_stream : String → List String) (search_tool : SearchTool)
    (fast_llm : String → PyContent) (rerank_settings : Option RerankSettings)
    (rerank_model_score : InferenceSection → ℚ) :
    Except ConfigError ExpandedRetrievalResult :=
  match expand_queries config question sub_question_id llm_stream with
  | .error e => .error e
  | .ok eq =>
    let updates := eq.expanded_queries.map
      (fun q => (doc_retrieval cfg search_tool q).1)
    let expanded_retrieval_results :=
      (updates.map (fun u => u.expanded_retrieval_results)).flatten
    let retrieved_documents :=
      (updates.map (fun u => u.retrieved_documents)).flatten
    let verification_question := question.getD config.search_request.query
    let verified_documents :=
      (retrieved_documents.map
        (fun d => (doc_verification verification_question d fast_llm).verified_documents)).flatten
    let rr := doc_reranking cfg rerank_settings
      (fun docs => (rerank_sections rerank_model_score docs).map RerankEntry.sec)
      verified_documents
    .ok (format_results expanded_retrieval_results verified_documents
      rr.reranked_documents)

/-- The identity keys of all documents observed across all QueryResults'
retrieved lists (with duplicates, in order). -/
def observed_doc_chunk_ids (results : List QueryResult) : List String :=
  (results.map (fun r => r.search_results.map doc_chunk_id)).flatten

/-- The identity keys of the documents, observed across all QueryResults'
retrieved lists, whose center chunk carries a score. -/
def scored_doc_chunk_ids (results : List QueryResult) : List String :=
  (results.map (fun r => r.search_results.filterMap
    (fun d => match d.center_chunk.score with
              | some _ => some (doc_chunk_id d)
              | none => none))).flatten

/-- The keys of an insertion-ordered association list. -/
def keysOf (m : List (String × List ℚ)) : List String := m.map Prod.fst

/-- Removes every occurrence of the identity key `k` from a QueryResult's
retrieved list (used to state that scoreless keys are inert). -/
def drop_key (k : String) (r : QueryResult) : QueryResult :=
  { r with search_results :=
      r.search_results.filter (fun d => !(doc_chunk_id d == k)) }

/-! Concrete fixtures used to evaluate the embedding at explicit inputs. -/

/-- A document section whose center chunk carries no score. -/
def dN : InferenceSection :=
  { center_chunk := { document_id := "N", chunk_id := 0, score := none }
    combined_content := "scoreless content" }

/-- A document section whose center chunk carries score 1. -/
def d0 : InferenceSection :=
  { center_chunk := { document_id := "D", chunk_id := 0, score := some 1 }
    combined_content := "good content" }

/-- A backend whose only response is the summary response carrying `d0`,
with no underlying search pipeline. -/
def tool0 : SearchTool :=
  { run := fun _ => [{ id := SEARCH_RESPONSE_SUMMARY_ID, top_sections := [d0] }]
    search_pipeline := none }

/-- A backend whose only response is the summary response carrying the
scoreless section `dN`, with no underlying search pipeline. -/
def toolN : SearchTool :=
  { run := fun _ => [{ id := SEARCH_RESPONSE_SUMMARY_ID, top_sections := [dN] }]
    search_pipeline := none }

/-- A configuration with both statistics flags disabled. -/
def cfg0 : AgentConfig :=
  { max_retrieval_results := 10, max_reranked_results := 10
    enable_retrieval_stats := false, enable_rerank_stats := false }

/-- `cfg0` with retrieval statistics enabled. -/
def cfg1 : AgentConfig := { cfg0 with enable_retrieval_stats := true }

/-- A subgraph configuration with original query "orig" and a chat session. -/
def config0 : SubgraphConfig :=
  { search_request := { query := "orig" }, chat_session_id := some "c" }

/-- Reranking settings with a configured model and a positive rerank count. -/
def rsOn : Option RerankSettings :=
  some { rerank_model_name := some "m", num_rerank := 1 }

/-- A single QueryResult whose only retrieved document is scoreless. -/
def results1 : List QueryResult :=
  [{ query := "q", search_results := [dN], stats := none }]

/-- The result bundle produced by the concrete end-to-end run used as a
witness input: one expanded query "q1" retrieving the scoreless section `dN`,
which the verifier accepts. -/
def res0 : ExpandedRetrievalResult :=
  { expanded_queries_results := [{ query := "q1", search_results := [dN], stats := none }]
    all_documents := [dN]
    sub_question_retrieval_stats :=
      { verified_count := 0, verified_avg_scores := 0, rejected_count := 0
        rejected_avg_scores := none, verified_doc_chunk_ids := ["N_0"]
        dismissed_doc_chunk_ids := [] } }

/-- Equality of pipeline outcomes is decidable (the error and result types
both carry decidable equality). -/
instance : DecidableEq (Except ConfigError ExpandedRetrievalResult) :=
  fun a b =>
    match a, b with
    | .ok x, .ok y =>
      if h : x = y then .isTrue (by rw [h]) else .isFalse (by simp [h])
    | .error x, .error y =>
      if h : x = y then .isTrue (by rw [h]) else .isFalse (by simp [h])
    | .ok _, .error _ => .isFalse (by simp)
    | .error _, .ok _ => .isFalse (by simp)

/-! Helper lemmas. -/

lemma isPrefixList_iff : ∀ (pre l : List Char),
    isPrefixList pre l = true ↔ ∃ t, l = pre ++ t
  | [], l => by simp [isPrefixList]
  | a :: asl, [] => by simp [isPrefixList]
  | a :: asl, b :: bs => by
    simp only [isPrefixList, Bool.and_eq_true, decide_eq_true_eq]
    constructor
    · rintro ⟨rfl, h⟩
      obtain ⟨t, rfl⟩ := (isPrefixList_iff asl bs).1 h
      exact ⟨t, rfl⟩
    · rintro ⟨t, h⟩
      injection h with h1 h2
      exact ⟨h1.symm, (isPrefixList_iff asl bs).2 ⟨t, h2⟩⟩

lemma strContains_iff : ∀ (hay nd : List Char),
    strContains hay nd = true ↔ ∃ pre post, hay = pre ++ nd ++ post
  | [], [] => by simp [strContains]
  | [], c :: t => by simp [strContains]
  | c :: t, nd => by
    simp only [strContains, Bool.or_eq_true]
    constructor
    · rintro (h | h)
      · obtain ⟨rest, hr⟩ := (isPrefixList_iff nd (c :: t)).1 h
        exact ⟨[], rest, by simpa using hr⟩
      · obtain ⟨pre, post, rfl⟩ := (strContains_iff t nd).1 h
        exact ⟨c :: pre, post, rfl⟩
    · rintro ⟨pre, post, h⟩
      cases pre with
      | nil =>
        exact Or.inl ((isPrefixList_iff nd (c :: t)).2 ⟨post, by simpa using h⟩)
      | cons p ps =>
        injection h with h1 h2
        exact Or.inr ((strContains_iff t nd).2 ⟨ps, post, h2⟩)

lemma splitLinesChars_ne_nil (l : List Char) : splitLinesChars l ≠ [] := by
  induction l with
  | nil => simp [splitLinesChars]
  | cons c rest ih =>
    simp only [splitLinesChars]
    split
    · simp
    · split <;> simp

lemma py_split_newline_ne_nil (s : String) : py_split_newline s ≠ [] := by
  have := splitLinesChars_ne_nil s.toList
  simp only [py_split_newline, ne_eq, List.map_eq_nil_iff]
  exact this

lemma mem_entry_sections (d : InferenceSection) (l : List RerankEntry) :
    d ∈ entry_sections l ↔ RerankEntry.sec d ∈ l := by
  simp only [entry_sections, List.mem_filterMap]
  constructor
  · rintro ⟨e, he, hd⟩
    cases e with
    | sec s => cases hd with | refl => exact he
    | malformed t => exact Option.noConfusion hd
  · intro hd
    exact ⟨RerankEntry.sec d, hd, rfl⟩

lemma entry_sections_map_sec (l : List InferenceSection) :
    entry_sections (l.map RerankEntry.sec) = l := by
  induction l with
  | nil => rfl
  | cons a t ih => simpa [entry_sections, List.filterMap_cons] using ih

lemma doc_reranking_reranked_eq (cfg : AgentConfig) (rs : Option RerankSettings)
    (rrun : List InferenceSection → List RerankEntry)
    (verified : List InferenceSection) :
    (doc_reranking cfg rs rrun verified).reranked_documents =
      (entry_sections (if rerank_configured rs then rrun verified
        else verified.map RerankEntry.sec)).take cfg.max_reranked_results := rfl

lemma pre_rerank_of_not_exposed : ∀ (tool : SearchTool)
    (docs : List InferenceSection),
    exposes_pre_rerank tool = false → pre_rerank_of tool docs = docs
  | ⟨_, none⟩, _, _ => rfl
  | ⟨_, some ⟨none⟩⟩, _, _ => rfl
  | ⟨_, some ⟨some l⟩⟩, docs, h => by
    simp only [exposes_pre_rerank] at h
    have h' : l.isEmpty = true := by simpa using h
    simp only [pre_rerank_of]
    rw [if_pos h']

lemma get_fit_scores_self_lift (docs : List InferenceSection) :
    (get_fit_scores docs docs).fit_score_lift = 0 := sub_self _

/-! Claim theorems. -/

/-- C3 (counterexample): when the reranker returns a genuine document section
that is not among the verified documents, `doc_reranking` keeps it — the
defensive type filter only removes non-section entries — so the final list is
not a subset of the verified-document list for every reranker output. -/
theorem doc_reranking_can_invent_documents :
    (doc_reranking cfg0 rsOn (fun _ => [RerankEntry.sec d0]) []).reranked_documents
      = [d0] ∧
    d0 ∉ ([] : List InferenceSection) := by
  exact ⟨rfl, by simp⟩

/-- C3 (amended): the final document list of the reranking stage consists of
the section-typed entries of the reranker output, and its length never
exceeds the configured `max_reranked_results` cap, unconditionally; whenever
the reranker only returns (reordered or filtered) verified documents, the
final list is moreover a subset of the verified-document list. -/
theorem doc_reranking_subset_and_capped (cfg : AgentConfig)
    (rs : Option RerankSettings)
    (rrun : List InferenceSection → List RerankEntry)
    (verified : List InferenceSection) :
    ((∀ d : InferenceSection, RerankEntry.sec d ∈ rrun verified → d ∈ verified) →
      ∀ d ∈ (doc_reranking cfg rs rrun verified).reranked_documents, d ∈ verified) ∧
    (doc_reranking cfg rs rrun verified).reranked_documents.length ≤
      cfg.max_reranked_results := by
  constructor
  · intro h d hd
    rw [doc_reranking_reranked_eq] at hd
    have hd2 := List.take_subset _ _ hd
    by_cases hc : rerank_configured rs = true
    · rw [if_pos hc] at hd2
      exact h d ((mem_entry_sections _ _).1 hd2)
    · rw [if_neg hc] at hd2
      rw [entry_sections_map_sec] at hd2
      exact hd2
  · rw [doc_reranking_reranked_eq]
    exact List.length_take_le _ _

/-- C3 (witness): the amended theorem applied with reranking configured
(`rsOn`) and a reranker that actually reorders the verified list `[d0]` via
the spec-modelled `rerank_sections`, so the reorder/filter hypothesis of the
subset conjunct is discharged non-vacuously; the cap conjunct needs no
hypothesis. -/
theorem doc_reranking_subset_and_capped_witness :
    (∀ d ∈ (doc_reranking cfg0 rsOn
        (fun docs => (rerank_sections (fun _ => (0 : ℚ)) docs).map RerankEntry.sec)
        [d0]).reranked_documents, d ∈ [d0]) ∧
    (doc_reranking cfg0 rsOn
        (fun docs => (rerank_sections (fun _ => (0 : ℚ)) docs).map RerankEntry.sec)
        [d0]).reranked_documents.length ≤ cfg0.max_reranked_results :=
  ⟨(doc_reranking_subset_and_capped cfg0 rsOn
      (fun docs => (rerank_sections (fun _ => (0 : ℚ)) docs).map RerankEntry.sec)
      [d0]).1
    (by
      intro d hd
      have hd' : RerankEntry.sec d ∈ [RerankEntry.sec d0] := hd
      rw [List.mem_singleton] at hd'
      injection hd' with h'
      rw [h']
      exact List.mem_singleton_self d0),
   (doc_reranking_subset_and_capped cfg0 rsOn
      (fun docs => (rerank_sections (fun _ => (0 : ℚ)) docs).map RerankEntry.sec)
      [d0]).2⟩

/-- C7: for every non-blank query, the retrieval worker emits exactly one
QueryResult; with retrieval statistics enabled its stats compare the
backend's pre-rerank candidate set against the truncated retrieved list,
falling back to the retrieved list itself (lift 0) when the backend exposes
no pre-rerank candidate set; with retrieval statistics disabled the stats
field is `none`. -/
theorem doc_retrieval_stats_mode (cfg : AgentConfig) (tool : SearchTool)
    (q : String) (h : ¬ py_strip q = "") :
    ∃ qr : QueryResult,
      (doc_retrieval cfg tool q).1.expanded_retrieval_results = [qr] ∧
      (doc_retrieval cfg tool q).1.retrieved_documents = qr.search_results ∧
      qr.stats = (if cfg.enable_retrieval_stats then
          some (get_fit_scores (pre_rerank_of tool qr.search_results)
            qr.search_results)
        else none) ∧
      (exposes_pre_rerank tool = false →
        pre_rerank_of tool qr.search_results = qr.search_results ∧
        (get_fit_scores qr.search_results qr.search_results).fit_score_lift = 0) := by
  unfold doc_retrieval
  rw [if_neg h]
  refine ⟨_, rfl, rfl, rfl, fun hexp => ?_⟩
  exact ⟨pre_rerank_of_not_exposed tool _ hexp, get_fit_scores_self_lift _⟩

/-- C7 (witness): the theorem applied to a concrete non-blank query, a
configuration with retrieval statistics enabled and a backend without a
pre-rerank candidate set. -/
theorem doc_retrieval_stats_mode_witness :
    ¬ py_strip "q" = "" ∧
    ∃ qr : QueryResult,
      (doc_retrieval cfg1 tool0 "q").1.expanded_retrieval_results = [qr] ∧
      (doc_retrieval cfg1 tool0 "q").1.retrieved_documents = qr.search_results ∧
      qr.stats = (if cfg1.enable_retrieval_stats then
          some (get_fit_scores (pre_rerank_of tool0 qr.search_results)
            qr.search_results)
        else none) ∧
      (exposes_pre_rerank tool0 = false →
        pre_rerank_of tool0 qr.search_results = qr.search_results ∧
        (get_fit_scores qr.search_results qr.search_results).fit_score_lift = 0) :=
  ⟨by decide, doc_retrieval_stats_mode cfg1 tool0 "q" (by decide)⟩

/-- C2 (counterexample): on the blank query `" "`, `doc_retrieval` emits no
QueryResult at all — in particular not an empty QueryResult for that query —
so the claim that a blank query yields "an empty QueryResult" is false as
stated. -/
theorem doc_retrieval_blank_emits_no_query_result :
    (doc_retrieval cfg0 tool0 " ").1.expanded_retrieval_results = [] ∧
    ¬ ∃ qr ∈ (doc_retrieval cfg0 tool0 " ").1.expanded_retrieval_results,
        qr.query = " " ∧ qr.search_results = [] := by
  decide

/-- C2 (amended): for every blank (empty or whitespace-only) query the
retrieval worker returns the empty update — an empty QueryResult list and an
empty retrieved-document list — and performs zero backend invocations. -/
theorem doc_retrieval_blank_skips_backend (cfg : AgentConfig)
    (tool : SearchTool) (q : String) (h : py_strip q = "") :
    doc_retrieval cfg tool q =
      ({ expanded_retrieval_results := [], retrieved_documents := [] }, 0) := by
  simp [doc_retrieval, h]

/-- C2 (witness): the amended theorem applied to the concrete blank query
`" \t "`. -/
theorem doc_retrieval_blank_skips_backend_witness :
    py_strip " \t " = "" ∧
    doc_retrieval cfg0 tool0 " \t " =
      ({ expanded_retrieval_results := [], retrieved_documents := [] }, 0) :=
  ⟨by decide, doc_retrieval_blank_skips_backend cfg0 tool0 " \t " (by decide)⟩

/-- C8: with reranking statistics disabled, the reranking stage's FitStats is
the explicit zero object — lift 0, rerank effect 0 and an empty score map —
never an absent value. -/
theorem doc_reranking_stats_disabled_zero (cfg : AgentConfig)
    (rs : Option RerankSettings)
    (rrun : List InferenceSection → List RerankEntry)
    (verified : List InferenceSection) (h : cfg.enable_rerank_stats = false) :
    (doc_reranking cfg rs rrun verified).sub_question_retrieval_stats =
      { fit_score_lift := 0, rerank_effect := 0, fit_scores := [] } := by
  simp [doc_reranking, h]

/-- C8 (witness): the theorem applied to the concrete configuration `cfg0`
whose rerank-stats flag is off. -/
theorem doc_reranking_stats_disabled_zero_witness :
    cfg0.enable_rerank_stats = false ∧
    (doc_reranking cfg0 none (fun _ => []) []).sub_question_retrieval_stats =
      { fit_score_lift := 0, rerank_effect := 0, fit_scores := [] } :=
  ⟨by decide, doc_reranking_stats_disabled_zero cfg0 none (fun _ => []) [] (by decide)⟩

/-- C6: query expansion fails (with the configuration error carrying the
message "chat_session_id must be provided for agent search") exactly when the
chat-session identity is absent; for every other input it succeeds, so the
missing chat session is the only raising condition. -/
theorem expand_queries_error_iff_no_chat_session (config : SubgraphConfig)
    (question sqid : Option String) (llm : String → List String) :
    (∃ e, expand_queries config question sqid llm = .error e) ↔
      config.chat_session_id = none := by
  cases h : config.chat_session_id <;> simp [expand_queries, h]

/-- C5 (counterexample): with original query "orig" and the blank (non-absent)
question `" "`, expansion does not fall back to the original query — it uses
the blank question and returns exactly the model's lines, which do not
contain the literal original query. -/
theorem expand_queries_blank_question_no_fallback :
    py_strip " " = "" ∧
    config0.search_request.query = "orig" ∧
    expand_queries config0 (some " ") none (fun _ => ["foo"]) =
      .ok { expanded_queries := ["foo"] } ∧
    "orig" ∉ ["foo"] :=
  ⟨by decide, rfl, rfl, by decide⟩

/-- C5 (amended): expansion falls back to the configured original search
request's query exactly when no question is supplied (the question field is
absent, not blank), and every successful expansion returns a non-empty
expanded-query list (splitting the accumulated model response on line breaks
yields at least one entry). -/
theorem expand_queries_fallback_when_absent_and_nonempty
    (config : SubgraphConfig) (question sqid : Option String)
    (llm : String → List String) (res : QueryExpansionUpdate)
    (h : expand_queries config question sqid llm = .ok res) :
    expand_queries config none sqid llm =
      expand_queries config (some config.search_request.query) sqid llm ∧
    res.expanded_queries ≠ [] := by
  constructor
  · rfl
  · revert h
    unfold expand_queries
    cases config.chat_session_id with
    | none => intro h; exact absurd h (by simp)
    | some cid =>
      intro h
      simp only [Except.ok.injEq] at h
      rw [← h]
      simpa using py_split_newline_ne_nil _

/-- C5 (witness): the amended theorem applied to a concrete successful
expansion. -/
theorem expand_queries_fallback_when_absent_and_nonempty_witness :
    expand_queries config0 (some "x") none (fun _ => ["foo"]) =
      .ok { expanded_queries := ["foo"] } ∧
    (expand_queries config0 none none (fun _ => ["foo"]) =
      expand_queries config0 (some config0.search_request.query) none
        (fun _ => ["foo"]) ∧
    ({ expanded_queries := ["foo"] } : QueryExpansionUpdate).expanded_queries ≠ []) :=
  ⟨rfl,
   expand_queries_fallback_when_absent_and_nonempty config0 (some "x") none
     (fun _ => ["foo"]) { expanded_queries := ["foo"] } rfl⟩

/-- C4: the verifier classifies a document as relevant — appending exactly
that document to the verified list — if and only if the model response's
content is a string whose lowercasing contains the substring "yes"; every
other response (including non-string content) yields the empty verified list,
and the output is always one of these two lists. -/
theorem doc_verification_relevant_iff_yes (question : String)
    (doc : InferenceSection) (fast_llm : String → PyContent) :
    ((doc_verification question doc fast_llm).verified_documents = [doc] ↔
      ∃ s pre post,
        fast_llm (VERIFIER_PROMPT_format question doc.combined_content) = .str s ∧
        py_lower_chars s = pre ++ "yes".toList ++ post) ∧
    ((doc_verification question doc fast_llm).verified_documents = [doc] ∨
      (doc_verification question doc fast_llm).verified_documents = []) := by
  have base : (doc_verification question doc fast_llm).verified_documents =
      (if response_is_yes
          (fast_llm (VERIFIER_PROMPT_format question doc.combined_content)) = true
        then [doc] else []) := rfl
  generalize fast_llm (VERIFIER_PROMPT_format question doc.combined_content) = r at base ⊢
  rw [base]
  cases r with
  | str s =>
    by_cases hy : strContains (py_lower_chars s) "yes".toList = true
    · simp only [response_is_yes]
      rw [if_pos hy]
      refine ⟨⟨fun _ => ?_, fun _ => rfl⟩, Or.inl rfl⟩
      obtain ⟨pre, post, hs⟩ := (strContains_iff _ _).1 hy
      exact ⟨s, pre, post, rfl, hs⟩
    · simp only [response_is_yes]
      rw [if_neg hy]
      refine ⟨⟨fun hc => absurd hc (by simp), ?_⟩, Or.inr rfl⟩
      rintro ⟨s', pre, post, hs', hdec⟩
      injection hs' with hss
      exact absurd ((strContains_iff _ _).2 ⟨pre, post, by rw [hss]; exact hdec⟩) hy
  | nonstr t =>
    simp only [response_is_yes]
    rw [if_neg (by simp)]
    refine ⟨⟨fun hc => absurd hc (by simp), ?_⟩, Or.inr rfl⟩
    rintro ⟨s', pre, post, hs', hdec⟩
    exact PyContent.noConfusion hs'

/-! Association-list and fold lemmas for the stats aggregator. -/

lemma keysOf_assocAppend_of_mem : ∀ (m : List (String × List ℚ)) (k : String)
    (v : ℚ), k ∈ keysOf m → keysOf (assocAppend m k v) = keysOf m
  | [], k, v => by simp [keysOf]
  | (k', vs) :: rest, k, v => by
    intro h
    by_cases hk : k' = k
    · simp [assocAppend, hk, keysOf]
    · have h' : k ∈ keysOf rest := by
        rcases (by simpa [keysOf] using h : k = k' ∨ k ∈ keysOf rest) with h1 | h2
        · exact absurd h1.symm hk
        · exact h2
      simp only [assocAppend, if_neg hk, keysOf, List.map_cons]
      exact congrArg (List.cons k') (keysOf_assocAppend_of_mem rest k v h')

lemma keysOf_assocAppend_of_not_mem : ∀ (m : List (String × List ℚ))
    (k : String) (v : ℚ),
    k ∉ keysOf m → keysOf (assocAppend m k v) = keysOf m ++ [k]
  | [], k, v, _ => by simp [assocAppend, keysOf]
  | (k', vs) :: rest, k, v, h => by
    have hk : ¬ k' = k := fun e => h (by simp [keysOf, e])
    have h' : k ∉ keysOf rest := fun hm => h (List.mem_cons_of_mem k' hm)
    simp only [assocAppend, if_neg hk, keysOf, List.map_cons, List.cons_append]
    exact congrArg (List.cons k') (keysOf_assocAppend_of_not_mem rest k v h')

lemma mem_keysOf_assocAppend (m : List (String × List ℚ)) (k : String) (v : ℚ)
    (a : String) : a ∈ keysOf (assocAppend m k v) ↔ a = k ∨ a ∈ keysOf m := by
  by_cases h : k ∈ keysOf m
  · rw [keysOf_assocAppend_of_mem m k v h]
    constructor
    · exact Or.inr
    · rintro (rfl | h2)
      · exact h
      · exact h2
  · rw [keysOf_assocAppend_of_not_mem m k v h]
    simp [or_comm]

lemma nodup_keysOf_assocAppend (m : List (String × List ℚ)) (k : String)
    (v : ℚ) (h : (keysOf m).Nodup) : (keysOf (assocAppend m k v)).Nodup := by
  by_cases hm : k ∈ keysOf m
  · rwa [keysOf_assocAppend_of_mem m k v hm]
  · rw [keysOf_assocAppend_of_not_mem m k v hm]
    simpa [List.nodup_append] using ⟨h, hm⟩

lemma mem_keysOf_foldl_docs : ∀ (docs : List InferenceSection)
    (m : List (String × List ℚ)) (a : String),
    a ∈ keysOf (docs.foldl score_fold_doc m) ↔
      a ∈ keysOf m ∨ a ∈ docs.filterMap (fun d =>
        match d.center_chunk.score with
        | some _ => some (doc_chunk_id d)
        | none => none)
  | [], m, a => by simp
  | d :: t, m, a => by
    rw [List.foldl_cons, mem_keysOf_foldl_docs t _ a]
    cases hs : d.center_chunk.score with
    | none => simp [score_fold_doc, hs, List.filterMap_cons]
    | some v =>
      simp only [score_fold_doc, hs, List.filterMap_cons, mem_keysOf_assocAppend,
        List.mem_cons]
      tauto

lemma nodup_keysOf_foldl_docs : ∀ (docs : List InferenceSection)
    (m : List (String × List ℚ)), (keysOf m).Nodup →
    (keysOf (docs.foldl score_fold_doc m)).Nodup
  | [], _, h => h
  | d :: t, m, h => by
    rw [List.foldl_cons]
    apply nodup_keysOf_foldl_docs t
    cases hs : d.center_chunk.score with
    | none => simpa [score_fold_doc, hs] using h
    | some v =>
      simpa [score_fold_doc, hs] using
        nodup_keysOf_assocAppend m (doc_chunk_id d) v h

lemma mem_keysOf_foldl_results : ∀ (results : List QueryResult)
    (m : List (String × List ℚ)) (a : String),
    a ∈ keysOf (results.foldl score_fold_result m) ↔
      a ∈ keysOf m ∨ a ∈ scored_doc_chunk_ids results
  | [], m, a => by simp [scored_doc_chunk_ids]
  | r :: rest, m, a => by
    rw [List.foldl_cons, mem_keysOf_foldl_results rest _ a]
    simp only [score_fold_result]
    rw [mem_keysOf_foldl_docs r.search_results m a]
    simp only [scored_doc_chunk_ids, List.map_cons, List.flatten_cons,
      List.mem_append]
    tauto

lemma nodup_keysOf_foldl_results : ∀ (results : List QueryResult)
    (m : List (String × List ℚ)), (keysOf m).Nodup →
    (keysOf (results.foldl score_fold_result m)).Nodup
  | [], _, h => h
  | r :: rest, m, h => by
    rw [List.foldl_cons]
    exact nodup_keysOf_foldl_results rest _
      (nodup_keysOf_foldl_docs r.search_results m h)

lemma mem_keysOf_buildChunkScores (results : List QueryResult) (a : String) :
    a ∈ keysOf (buildChunkScores results) ↔ a ∈ scored_doc_chunk_ids results := by
  unfold buildChunkScores
  rw [mem_keysOf_foldl_results results [] a]
  simp [keysOf]

lemma nodup_keysOf_buildChunkScores (results : List QueryResult) :
    (keysOf (buildChunkScores results)).Nodup := by
  unfold buildChunkScores
  exact nodup_keysOf_foldl_results results [] (by simp [keysOf])

lemma chunk_loop_counts : ∀ (l : List (String × List ℚ)) (ids : List String)
    (acc : RawChunkStats),
    (l.foldl (chunk_step ids) acc).verified_count +
      (l.foldl (chunk_step ids) acc).rejected_count =
      acc.verified_count + acc.rejected_count + l.length
  | [], ids, acc => by simp
  | e :: t, ids, acc => by
    rw [List.foldl_cons, chunk_loop_counts t ids _]
    unfold chunk_step
    by_cases h : e.1 ∈ ids
    · rw [if_pos h]
      dsimp
      omega
    · rw [if_neg h]
      dsimp
      omega

lemma chunk_loop_dismissed : ∀ (l : List (String × List ℚ))
    (ids : List String) (acc : RawChunkStats) (a : String),
    a ∈ (l.foldl (chunk_step ids) acc).dismissed_doc_chunk_ids →
      a ∈ acc.dismissed_doc_chunk_ids ∨ a ∈ keysOf l
  | [], ids, acc, a => fun h => Or.inl h
  | e :: t, ids, acc, a => fun h => by
    rw [List.foldl_cons] at h
    rcases chunk_loop_dismissed t ids _ a h with h1 | h2
    · unfold chunk_step at h1
      by_cases hm : e.1 ∈ ids
      · rw [if_pos hm] at h1
        exact Or.inl h1
      · rw [if_neg hm] at h1
        dsimp at h1
        rcases List.mem_append.1 h1 with h3 | h4
        · exact Or.inl h3
        · simp only [List.mem_singleton] at h4
          subst h4
          exact Or.inr (by simp [keysOf])
    · right
      simp only [keysOf, List.map_cons, List.mem_cons]
      exact Or.inr (by simpa [keysOf] using h2)

lemma calc_stats_counts (verified : List InferenceSection)
    (results : List QueryResult) :
    (calculate_sub_question_retrieval_stats verified results).verified_count +
      (calculate_sub_question_retrieval_stats verified results).rejected_count =
      (buildChunkScores results).length := by
  unfold calculate_sub_question_retrieval_stats
  dsimp
  rw [chunk_loop_counts]
  simp [RawChunkStats.init]

/-- C1 (counterexample): one QueryResult retrieving one scoreless document —
the distinct observed identity keys number 1, yet the stats aggregator counts
neither a verified nor a rejected chunk (sum 0), because only keys with at
least one non-`None` score enter the `chunk_scores` map. -/
theorem chunk_stats_counts_counterexample :
    (calculate_sub_question_retrieval_stats [] results1).verified_count +
      (calculate_sub_question_retrieval_stats [] results1).rejected_count = 0 ∧
    (observed_doc_chunk_ids results1).dedup.length = 1 := by
  constructor
  · decide
  · decide

/-- C1 (amended): verified_count + rejected_count equals the number of
distinct `(document_id, chunk_id)` identity keys that are observed with at
least one non-`None` score across all QueryResults' retrieved lists. -/
theorem chunk_stats_counts_eq_distinct_scored_keys
    (verified : List InferenceSection) (results : List QueryResult) :
    (calculate_sub_question_retrieval_stats verified results).verified_count +
      (calculate_sub_question_retrieval_stats verified results).rejected_count =
      (scored_doc_chunk_ids results).dedup.length := by
  rw [calc_stats_counts]
  have h1 : (buildChunkScores results).length =
      (keysOf (buildChunkScores results)).length := by simp [keysOf]
  rw [h1]
  have hperm : List.Perm (keysOf (buildChunkScores results))
      (scored_doc_chunk_ids results).dedup :=
    (List.perm_ext_iff_of_nodup (nodup_keysOf_buildChunkScores results)
        (List.nodup_dedup _)).2
      (fun a => by
        rw [mem_keysOf_buildChunkScores]
        exact (List.mem_dedup (l := scored_doc_chunk_ids results)).symm)
  exact hperm.length_eq

lemma foldl_docs_filter_scoreless (k : String) : ∀ (docs : List InferenceSection)
    (m : List (String × List ℚ)),
    (∀ d ∈ docs, doc_chunk_id d = k → d.center_chunk.score = none) →
    docs.foldl score_fold_doc m =
      (docs.filter (fun d => !(doc_chunk_id d == k))).foldl score_fold_doc m
  | [], m, _ => rfl
  | d :: t, m, h => by
    have ht : ∀ d' ∈ t, doc_chunk_id d' = k → d'.center_chunk.score = none :=
      fun d' hd' => h d' (List.mem_cons_of_mem _ hd')
    by_cases hk : doc_chunk_id d = k
    · have hs : d.center_chunk.score = none := h d (List.mem_cons_self _ _) hk
      rw [List.foldl_cons]
      have hstep : score_fold_doc m d = m := by simp [score_fold_doc, hs]
      rw [hstep, List.filter_cons, if_neg (by simp [hk])]
      exact foldl_docs_filter_scoreless k t m ht
    · rw [List.foldl_cons, List.filter_cons, if_pos (by simp [hk]),
        List.foldl_cons]
      exact foldl_docs_filter_scoreless k t (score_fold_doc m d) ht

lemma foldl_results_filter_scoreless (k : String) : ∀ (results : List QueryResult)
    (m : List (String × List ℚ)),
    (∀ r ∈ results, ∀ d ∈ r.search_results,
      doc_chunk_id d = k → d.center_chunk.score = none) →
    results.foldl score_fold_result m =
      (results.map (drop_key k)).foldl score_fold_result m
  | [], m, _ => rfl
  | r :: rest, m, h => by
    rw [List.map_cons, List.foldl_cons, List.foldl_cons]
    have hr := h r (List.mem_cons_self _ _)
    have hrest : ∀ r' ∈ rest, ∀ d ∈ r'.search_results,
        doc_chunk_id d = k → d.center_chunk.score = none :=
      fun r' hr' => h r' (List.mem_cons_of_mem _ hr')
    have hstep : score_fold_result m (drop_key k r) = score_fold_result m r := by
      simp only [score_fold_result, drop_key]
      exact (foldl_docs_filter_scoreless k r.search_results m hr).symm
    rw [hstep]
    exact foldl_results_filter_scoreless k rest _ hrest

lemma buildChunkScores_filter_scoreless (k : String) (results : List QueryResult)
    (h : ∀ r ∈ results, ∀ d ∈ r.search_results,
      doc_chunk_id d = k → d.center_chunk.score = none) :
    buildChunkScores results = buildChunkScores
      (results.map (drop_key k)) := by
  unfold buildChunkScores
  exact foldl_results_filter_scoreless k results [] h

/-- C10: the `verified_doc_chunk_ids` of the aggregated stats is exactly the
identity key of every document in the verified list, in order and with
duplicates preserved (including scoreless documents); and an identity key
whose score is `None` in every QueryResult occurrence contributes nothing —
the stats are unchanged when all its occurrences are removed, and it never
appears in `dismissed_doc_chunk_ids`. -/
theorem chunk_stats_unscored_key_inert (verified : List InferenceSection)
    (results : List QueryResult) (k : String)
    (hk : ∀ r ∈ results, ∀ d ∈ r.search_results,
      doc_chunk_id d = k → d.center_chunk.score = none) :
    (calculate_sub_question_retrieval_stats verified results).verified_doc_chunk_ids
      = verified.map doc_chunk_id ∧
    calculate_sub_question_retrieval_stats verified results =
      calculate_sub_question_retrieval_stats verified (results.map (drop_key k)) ∧
    k ∉ (calculate_sub_question_retrieval_stats verified
      results).dismissed_doc_chunk_ids := by
  refine ⟨rfl, ?_, ?_⟩
  · unfold calculate_sub_question_retrieval_stats
    rw [buildChunkScores_filter_scoreless k results hk]
  · intro hmem
    have hkeys : k ∈ keysOf (buildChunkScores results) := by
      unfold calculate_sub_question_retrieval_stats at hmem
      dsimp at hmem
      rcases chunk_loop_dismissed _ _ _ k hmem with h1 | h2
      · simp [RawChunkStats.init] at h1
      · exact h2
    rw [mem_keysOf_buildChunkScores] at hkeys
    rcases List.mem_flatten.1 hkeys with ⟨lst, hlst, hk_in⟩
    rcases List.mem_map.1 hlst with ⟨r, hr, rfl⟩
    rcases List.mem_filterMap.1 hk_in with ⟨d, hd, hsome⟩
    cases hscore : d.center_chunk.score with
    | none =>
      rw [hscore] at hsome
      exact Option.noConfusion hsome
    | some v =>
      rw [hscore] at hsome
      have hkey : doc_chunk_id d = k := by
        injection hsome
      have hnone := hk r hr d hd hkey
      rw [hscore] at hnone
      exact Option.noConfusion hnone

/-- C10 (witness): the theorem applied to the concrete scoreless key "N_0",
with the scoreless document `dN` appearing twice in the verified list. -/
theorem chunk_stats_unscored_key_inert_witness :
    (∀ r ∈ results1, ∀ d ∈ r.search_results,
      doc_chunk_id d = "N_0" → d.center_chunk.score = none) ∧
    ((calculate_sub_question_retrieval_stats [dN, dN] results1).verified_doc_chunk_ids
        = [dN, dN].map doc_chunk_id ∧
      calculate_sub_question_retrieval_stats [dN, dN] results1 =
        calculate_sub_question_retrieval_stats [dN, dN]
          (results1.map (drop_key "N_0")) ∧
      "N_0" ∉ (calculate_sub_question_retrieval_stats [dN, dN]
        results1).dismissed_doc_chunk_ids) :=
  ⟨by decide, chunk_stats_unscored_key_inert [dN, dN] results1 "N_0" (by decide)⟩

/-! Lemmas for the end-to-end no-fabrication invariant. -/

lemma mem_insertByScore (f : InferenceSection → ℚ) (d a : InferenceSection) :
    ∀ (l : List InferenceSection), a ∈ insertByScore f d l → a = d ∨ a ∈ l
  | [] => by simp [insertByScore]
  | x :: xs => by
    simp only [insertByScore]
    split
    · intro h
      simpa using h
    · intro h
      rcases List.mem_cons.1 h with h1 | h2
      · exact Or.inr (by simp [h1])
      · rcases mem_insertByScore f d a xs h2 with h3 | h4
        · exact Or.inl h3
        · exact Or.inr (List.mem_cons_of_mem _ h4)

lemma mem_rerank_sections (f : InferenceSection → ℚ) (a : InferenceSection) :
    ∀ (docs : List InferenceSection), a ∈ rerank_sections f docs → a ∈ docs
  | [] => by simp [rerank_sections]
  | d :: t => by
    intro h
    simp only [rerank_sections, List.foldr_cons] at h
    rcases mem_insertByScore f d a _ h with h1 | h2
    · simp [h1]
    · exact List.mem_cons_of_mem _ (mem_rerank_sections f a t h2)

lemma doc_retrieval_retrieved_in_results (cfg : AgentConfig)
    (tool : SearchTool) (q : String) (d : InferenceSection)
    (h : d ∈ (doc_retrieval cfg tool q).1.retrieved_documents) :
    ∃ qr ∈ (doc_retrieval cfg tool q).1.expanded_retrieval_results,
      d ∈ qr.search_results := by
  unfold doc_retrieval at *
  by_cases hb : py_strip q = ""
  · rw [if_pos hb] at h
    simp at h
  · rw [if_neg hb] at h ⊢
    exact ⟨_, List.mem_singleton_self _, h⟩

lemma doc_verification_mem (question : String) (dv a : InferenceSection)
    (llm : String → PyContent)
    (h : a ∈ (doc_verification question dv llm).verified_documents) : a = dv := by
  unfold doc_verification at h
  dsimp at h
  split at h
  · simpa using h
  · simp at h

/-- C9: every document in the final result bundle's document list previously
appeared in at least one QueryResult's retrieved list — verification only
re-emits its input document, the (spec-modelled) reranker only reorders the
verified documents, and result formatting passes the reranked list through —
so no document is fabricated after retrieval. -/
theorem final_documents_previously_retrieved (cfg : AgentConfig)
    (config : SubgraphConfig) (question sub_question_id : Option String)
    (llm_stream : String → List String) (search_tool : SearchTool)
    (fast_llm : String → PyContent) (rerank_settings : Option RerankSettings)
    (rerank_model_score : InferenceSection → ℚ)
    (res : ExpandedRetrievalResult) (d : InferenceSection)
    (hrun : run_expanded_retrieval cfg config question sub_question_id
      llm_stream search_tool fast_llm rerank_settings rerank_model_score
      = .ok res)
    (hd : d ∈ res.all_documents) :
    ∃ qr ∈ res.expanded_queries_results, d ∈ qr.search_results := by
  unfold run_expanded_retrieval at hrun
  cases hexp : expand_queries config question sub_question_id llm_stream with
  | error e =>
    rw [hexp] at hrun
    exact Except.noConfusion hrun
  | ok eq =>
    rw [hexp] at hrun
    dsimp at hrun
    injection hrun with hres
    subst hres
    dsimp [format_results] at hd ⊢
    rw [doc_reranking_reranked_eq] at hd
    have hd2 := List.take_subset _ _ hd
    have hdv : d ∈ ((((eq.expanded_queries.map
          (fun q => (doc_retrieval cfg search_tool q).1)).map
        (fun u => u.retrieved_documents)).flatten.map
        (fun dd => (doc_verification (question.getD config.search_request.query)
          dd fast_llm).verified_documents)).flatten) := by
      by_cases hc : rerank_configured rerank_settings = true
      · rw [if_pos hc] at hd2
        have hsec := (mem_entry_sections _ _).1 hd2
        rcases List.mem_map.1 hsec with ⟨x, hx, hxe⟩
        injection hxe with hxd
        subst hxd
        exact mem_rerank_sections _ _ _ hx
      · rw [if_neg hc, entry_sections_map_sec] at hd2
        exact hd2
    rcases List.mem_flatten.1 hdv with ⟨lst, hlst, hdl⟩
    rcases List.mem_map.1 hlst with ⟨dd, hdd, rfl⟩
    have hde : d = dd := doc_verification_mem _ _ _ _ hdl
    cases hde
    rcases List.mem_flatten.1 hdd with ⟨l2, hl2, hdl2⟩
    rcases List.mem_map.1 hl2 with ⟨u, hu, rfl⟩
    rcases List.mem_map.1 hu with ⟨q, hq, rfl⟩
    obtain ⟨qr, hqr, hdqr⟩ :=
      doc_retrieval_retrieved_in_results cfg search_tool q d hdl2
    refine ⟨qr, ?_, hdqr⟩
    apply List.mem_flatten.2
    refine ⟨(doc_retrieval cfg search_tool q).1.expanded_retrieval_results, ?_, hqr⟩
    exact List.mem_map.2 ⟨(doc_retrieval cfg search_tool q).1,
      List.mem_map.2 ⟨q, hq, rfl⟩, rfl⟩

/-- C9 (witness): the theorem applied to a concrete end-to-end run whose
final bundle contains `dN`, retrieved by the expanded query "q1". -/
theorem final_documents_previously_retrieved_witness :
    run_expanded_retrieval cfg0 config0 none none (fun _ => ["q1"]) toolN
      (fun _ => .str "Yes") none (fun _ => 0) = .ok res0 ∧
    dN ∈ res0.all_documents ∧
    ∃ qr ∈ res0.expanded_queries_results, dN ∈ qr.search_results :=
  ⟨by decide, by decide,
   final_documents_previously_retrieved cfg0 config0 none none
     (fun _ => ["q1"]) toolN (fun _ => .str "Yes") none (fun _ => 0) res0 dN
     (by decide) (by decide)⟩

end Onyx
